import Mathlib

/-!
Verification of the diagram sanitizer / tiered-fallback renderer
(the `MermaidDiagram` component: `processDefinition`,
`validateAndFixDiagram`, `createFallbackDiagram`, `ensurePerfectDiagram`,
`renderDiagram`).

The component's repair passes are driven by JavaScript regular
expressions, so the embedding includes a small backtracking regex
matcher with JavaScript semantics for the constructs the source uses:
ordered alternation, greedy quantifiers over single-character classes
(with backtracking), word boundaries, `$` anchors (multiline and not),
capture groups, backreferences, negative lookahead, and the wildcard
`.`.  All functions are executable and defined by structural recursion
so concrete runs evaluate in the kernel.
-/

namespace Mermaid

/-- JavaScript word character (`\w` and the classes used by `\b`). -/
def jsWordChar (c : Char) : Bool :=
  (('A' ≤ c && c ≤ 'Z') || ('a' ≤ c && c ≤ 'z') || ('0' ≤ c && c ≤ '9') || c = '_')

/-- Characters of the node-identifier class `[A-Za-z0-9_-]`. -/
def nodeChar (c : Char) : Bool :=
  jsWordChar c || c = '-'

/-- JavaScript whitespace (`\s`), restricted to the code points that can
appear in this development's documents. -/
def jsWhite (c : Char) : Bool :=
  c = ' ' || c = '\t' || c = '\n' || c = '\r' ||
  c = Char.ofNat 11 || c = Char.ofNat 12 || c = Char.ofNat 160 || c = Char.ofNat 0xFEFF

/-- JavaScript line terminators (for multiline `$` and for the wildcard `.`). -/
def jsLineTerm (c : Char) : Bool :=
  c = '\n' || c = '\r' || c = Char.ofNat 0x2028 || c = Char.ofNat 0x2029

/-- ASCII letter, for the case-insensitive class `[A-Z]` under the `i` flag. -/
def asciiLetter (c : Char) : Bool :=
  ('A' ≤ c && c ≤ 'Z') || ('a' ≤ c && c ≤ 'z')

/-- Regular expressions: the JavaScript subset the component uses.
Quantifiers only occur over single-character classes in the source, so
`starC`/`plusC` take a character predicate. -/
inductive RE where
  | chr (c : Char)
  | cls (p : Char → Bool)
  | any
  | eps
  | seq (a b : RE)
  | alt (a b : RE)
  | starC (p : Char → Bool)
  | plusC (p : Char → Bool)
  | group (i : Nat) (r : RE)
  | backref (i : Nat)
  | wordB
  | eol (multiline : Bool)
  | bos
  | nla (r : RE)

/-- Matcher state: the character just before the current position (for
`\b`, `^`), the remaining input, and the captures recorded so far. -/
structure MState where
  prev : Option Char
  rest : List Char
  caps : List (Nat × List Char)

def lookupCap (caps : List (Nat × List Char)) (i : Nat) : Option (List Char) :=
  match caps with
  | [] => none
  | (j, v) :: t => if j = i then some v else lookupCap t i

/-- Advance the state by `n` characters. -/
def advanceN : Nat → MState → MState
  | 0, s => s
  | n + 1, s =>
    match s.rest with
    | [] => s
    | c :: t => advanceN n ⟨some c, t, s.caps⟩

/-- Length of the maximal run of characters satisfying `p`. -/
def runLen (p : Char → Bool) : List Char → Nat
  | [] => 0
  | c :: t => if p c then runLen p t + 1 else 0

/-- Greedy quantifier: try consuming `n` characters first, then backtrack. -/
def matStar (s : MState) (k : MState → Option MState) : Nat → Option MState
  | 0 => k s
  | n + 1 =>
    match k (advanceN (n + 1) s) with
    | some r => some r
    | none => matStar s k n

/-- Match a literal character sequence (for backreferences). -/
def matLit : List Char → MState → (MState → Option MState) → Option MState
  | [], s, k => k s
  | c :: t, s, k =>
    match s.rest with
    | [] => none
    | x :: xs => if x = c then matLit t ⟨some x, xs, s.caps⟩ k else none

/-- Word-boundary test at the current position. -/
def atWordB (s : MState) : Bool :=
  let pw := match s.prev with | none => false | some c => jsWordChar c
  let nw := match s.rest with | [] => false | c :: _ => jsWordChar c
  pw ≠ nw

/-- Backtracking matcher in continuation-passing style.  Alternatives are
tried in order and quantifiers are greedy, as in JavaScript. -/
def mat : RE → MState → (MState → Option MState) → Option MState
  | .chr c, s, k =>
    match s.rest with
    | [] => none
    | x :: xs => if x = c then k ⟨some x, xs, s.caps⟩ else none
  | .cls p, s, k =>
    match s.rest with
    | [] => none
    | x :: xs => if p x then k ⟨some x, xs, s.caps⟩ else none
  | .any, s, k =>
    match s.rest with
    | [] => none
    | x :: xs => if jsLineTerm x then none else k ⟨some x, xs, s.caps⟩
  | .eps, s, k => k s
  | .seq a b, s, k => mat a s (fun s' => mat b s' k)
  | .alt a b, s, k =>
    match mat a s k with
    | some r => some r
    | none => mat b s k
  | .starC p, s, k => matStar s k (runLen p s.rest)
  | .plusC p, s, k =>
    match runLen p s.rest with
    | 0 => none
    | n + 1 =>
      matStar (advanceN 1 s) k n
  | .group i r, s, k =>
    mat r s (fun s' =>
      k ⟨s'.prev, s'.rest, (i, s.rest.take (s.rest.length - s'.rest.length)) :: s'.caps⟩)
  | .backref i, s, k =>
    match lookupCap s.caps i with
    | none => k s
    | some l => matLit l s k
  | .wordB, s, k => if atWordB s then k s else none
  | .eol m, s, k =>
    match s.rest with
    | [] => k s
    | c :: _ => if m && jsLineTerm c then k s else none
  | .bos, s, k =>
    match s.prev with
    | none => k s
    | some _ => none
  | .nla r, s, k =>
    match mat r s some with
    | some _ => none
    | none => k s

/-- A successful search: the characters before the match, the matched
characters, and the state after the match. -/
structure MFound where
  pre : List Char
  matched : List Char
  after : MState

/-- Leftmost search: try to match at each successive position. -/
def search (re : RE) : Option Char → List Char → Option MFound
  | prev, l =>
    match mat re ⟨prev, l, []⟩ some with
    | some s' => some ⟨[], l.take (l.length - s'.rest.length), s'⟩
    | none =>
      match l with
      | [] => none
      | c :: t =>
        match search re (some c) t with
        | some f => some ⟨c :: f.pre, f.matched, f.after⟩
        | none => none

/-- Global replace (`String.prototype.replace` with the `g` flag).  The
replacement is a function of the matched text and the captures.  On an
empty match the scan advances one character, as in JavaScript. -/
def replaceGo (re : RE) (f : List Char → List (Nat × List Char) → List Char) :
    Nat → Option Char → List Char → List Char
  | 0, _, l => l
  | fuel + 1, prev, l =>
    match search re prev l with
    | none => l
    | some fd =>
      match fd.matched with
      | [] =>
        match fd.after.rest with
        | [] => fd.pre ++ f [] fd.after.caps
        | c :: t => fd.pre ++ f [] fd.after.caps ++ c :: replaceGo re f fuel (some c) t
      | _ =>
        fd.pre ++ f fd.matched fd.after.caps ++
          replaceGo re f fuel fd.after.prev fd.after.rest

def replaceG (re : RE) (f : List Char → List (Nat × List Char) → List Char)
    (l : List Char) : List Char :=
  replaceGo re f (l.length + 1) none l

/-- Replace only the first match (`replace` without the `g` flag). -/
def replaceFirst (re : RE) (f : List Char → List (Nat × List Char) → List Char)
    (l : List Char) : List Char :=
  match search re none l with
  | none => l
  | some fd => fd.pre ++ f fd.matched fd.after.caps ++ fd.after.rest

/-- All matches with their captures, in order (the `exec` loop on a fixed
string, `lastIndex` advancing past each match). -/
def findAllGo (re : RE) : Nat → Option Char → List Char →
    List (List Char × List (Nat × List Char))
  | 0, _, _ => []
  | fuel + 1, prev, l =>
    match search re prev l with
    | none => []
    | some fd =>
      match fd.matched with
      | [] =>
        match fd.after.rest with
        | [] => [(fd.matched, fd.after.caps)]
        | c :: t => (fd.matched, fd.after.caps) :: findAllGo re fuel (some c) t
      | _ =>
        (fd.matched, fd.after.caps) :: findAllGo re fuel fd.after.prev fd.after.rest

def findAll (re : RE) (l : List Char) : List (List Char × List (Nat × List Char)) :=
  findAllGo re (l.length + 1) none l

/-- `RegExp.prototype.test`. -/
def reTest (re : RE) (l : List Char) : Bool :=
  (search re none l).isSome

/-- Search starting at index `i` of `l` (an `exec` with `lastIndex = i`),
returning the match start, match end, and captures. -/
def execFrom (re : RE) (l : List Char) (i : Nat) :
    Option (Nat × Nat × List (Nat × List Char)) :=
  let prev := if i = 0 then none else (l.take i).getLast?
  match search re prev (l.drop i) with
  | none => none
  | some fd => some (i + fd.pre.length, i + fd.pre.length + fd.matched.length, fd.after.caps)

/-! ### String utilities (JavaScript semantics, over `List Char`) -/

/-- `String.prototype.trim`. -/
def trimL (l : List Char) : List Char :=
  ((l.dropWhile jsWhite).reverse.dropWhile jsWhite).reverse

/-- `split("\n")` (a trailing newline yields a trailing empty line, as in
JavaScript). -/
def splitNl : List Char → List (List Char)
  | [] => [[]]
  | c :: t =>
    if c = '\n' then [] :: splitNl t
    else
      match splitNl t with
      | [] => [[c]]
      | h :: r => (c :: h) :: r

/-- `join("\n")`. -/
def joinNl (ls : List (List Char)) : List Char :=
  match ls with
  | [] => []
  | [l] => l
  | l :: t => l ++ '\n' :: joinNl t

/-- `String.prototype.includes`. -/
def containsSub (n : List Char) : List Char → Bool
  | [] => n.isEmpty
  | c :: t => n.isPrefixOf (c :: t) || containsSub n t

/-- Add to an insertion-ordered set (`Set.prototype.add`). -/
def addUnique (l : List (List Char)) (x : List Char) : List (List Char) :=
  if l.contains x then l else l ++ [x]

/-- Update an association map, last assignment winning
(`record[key] = value`). -/
def recordSet (m : List (List Char × List Char)) (k v : List Char) :
    List (List Char × List Char) :=
  match m with
  | [] => [(k, v)]
  | (k', v') :: t => if k' = k then (k, v) :: t else (k', v') :: recordSet t k v

/-- Lookup in an association map. -/
def recordGet (m : List (List Char × List Char)) (k : List Char) : Option (List Char) :=
  match m with
  | [] => none
  | (k', v) :: t => if k' = k then some v else recordGet t k

/-- `'end'.repeat(n)` etc. -/
def repeatL (l : List Char) : Nat → List Char
  | 0 => []
  | n + 1 => l ++ repeatL l n

/-- Capture group access with JavaScript's falsy default. -/
def cap (caps : List (Nat × List Char)) (i : Nat) : List Char :=
  (lookupCap caps i).getD []

/-! ### The regular expressions of the source, as `RE` values -/

def reStr : List Char → RE
  | [] => .eps
  | [c] => .chr c
  | c :: t => .seq (.chr c) (reStr t)

def reOf (s : String) : RE := reStr s.data

def reSeqs : List RE → RE
  | [] => .eps
  | [r] => r
  | r :: t => .seq r (reSeqs t)

def reAlts : List RE → RE
  | [] => .eps
  | [r] => r
  | r :: t => .alt r (reAlts t)

/-- Case-insensitive literal (the `i` flag), given in lower case. -/
def reStrCI (s : String) : RE :=
  reSeqs (s.data.map fun c => .cls (fun x => x.toLower = c))

/-- Pattern `\r\n` (flag `g`). -/
def reCRLF : RE := reOf "\r\n"

/-- Duplicate-header pattern
`(?:graph|flowchart)\s+(?:TD|LR|RL|BT)\s*\n\s*(?:graph|flowchart)\s+(?:TD|LR|RL|BT)` (flag `g`). -/
def reDupHeader : RE :=
  let kw := RE.alt (reOf "graph") (reOf "flowchart")
  let dir := reAlts [reOf "TD", reOf "LR", reOf "RL", reOf "BT"]
  reSeqs [kw, .plusC jsWhite, dir, .starC jsWhite, .chr '\n', .starC jsWhite,
    kw, .plusC jsWhite, dir]

/-- Pattern `--[^>]>` (flag `g`). -/
def reBadSolid : RE :=
  reSeqs [.chr '-', .chr '-', .cls (fun c => c ≠ '>'), .chr '>']

/-- Pattern `==[^>]>` (flag `g`). -/
def reBadThick : RE :=
  reSeqs [.chr '=', .chr '=', .cls (fun c => c ≠ '>'), .chr '>']

/-- `(?:;|$)` with or without the `m` flag. -/
def reSemiOrEol (m : Bool) : RE := .alt (.chr ';') (.eol m)

/-- Pattern `-->\s*(?:;|$)`. -/
def reDanglingSolidHead (m : Bool) : RE :=
  reSeqs [reOf "-->", .starC jsWhite, reSemiOrEol m]

/-- Pattern `==>\s*(?:;|$)`. -/
def reDanglingThickHead (m : Bool) : RE :=
  reSeqs [reOf "==>", .starC jsWhite, reSemiOrEol m]

/-- Pattern `-.->\s*(?:;|$)` — the `.` is an unescaped wildcard in the source. -/
def reDanglingDottedHead (m : Bool) : RE :=
  reSeqs [.chr '-', .any, .chr '-', .chr '>', .starC jsWhite, reSemiOrEol m]

/-- Pattern `--\s*(?:;|$)`. -/
def reDanglingSolid (m : Bool) : RE :=
  reSeqs [reOf "--", .starC jsWhite, reSemiOrEol m]

/-- Pattern `==\s*(?:;|$)`. -/
def reDanglingThick (m : Bool) : RE :=
  reSeqs [reOf "==", .starC jsWhite, reSemiOrEol m]

/-- Pattern `-\.\s*(?:;|$)`. -/
def reDanglingDotted (m : Bool) : RE :=
  reSeqs [.chr '-', .chr '.', .starC jsWhite, reSemiOrEol m]

/-- Bracket families `\[[^\]]*\]`, `\([^)]*\)`, `\{[^}]*\}`, with the label
captured in group `g` when `g ≠ 0`. -/
def reBracket (open_ close_ : Char) (g : Nat) : RE :=
  let body := RE.starC (fun c => c ≠ close_)
  reSeqs [.chr open_, if g = 0 then body else .group g body, .chr close_]

def reBracketAny (capture : Bool) : RE :=
  reAlts [reBracket '[' ']' (if capture then 2 else 0),
    reBracket '(' ')' (if capture then 3 else 0),
    reBracket '{' '}' (if capture then 4 else 0)]

/-- Node-definition pattern
`\b([A-Za-z0-9_-]+)\s*(?:\[[^\]]*\]|\([^)]*\)|\{[^}]*\})` (flag `g`); the variant
in the fallback synthesizer captures the three label alternatives as
groups 2–4, which does not change what matches. -/
def reNodeDef : RE :=
  reSeqs [.wordB, .group 1 (.plusC nodeChar), .starC jsWhite, reBracketAny true]

/-- Repeated-definition pattern
`([A-Za-z0-9_-]+(?:\[[^\]]*\]|\([^)]*\)|\{[^}]*\}))\s+\1\s+--(?!>)` (flags `gm`)
and its `==` / `-\.` variants; `tail` is the trailing arrow fragment. -/
def reRepeatedDef (tail : RE) : RE :=
  reSeqs [.group 1 (.seq (.plusC nodeChar) (reBracketAny false)),
    .plusC jsWhite, .backref 1, .plusC jsWhite, tail, .nla (.chr '>')]

def reRepeatedDefSolid : RE := reRepeatedDef (reOf "--")
def reRepeatedDefThick : RE := reRepeatedDef (reOf "==")
def reRepeatedDefDotted : RE := reRepeatedDef (reSeqs [.chr '-', .chr '.'])

/-- The arrow alternation used by the validator and the normalizer:
`-->|==>|-.->|--o|--x|\|>|<\||~~~|---|===` (the `.` in the dotted arrow
is a wildcard; alternatives are tried in this order). -/
def reArrows : RE :=
  reAlts [reOf "-->", reOf "==>", reSeqs [.chr '-', .any, .chr '-', .chr '>'],
    reOf "--o", reOf "--x", reOf "|>", reOf "<|", reOf "~~~", reOf "---", reOf "==="]

/-- Connection pattern without a target:
`\b([A-Za-z0-9_-]+)\s*(?:-->|==>|-.->|--o|--x|\|>|<\||~~~|---|===)` (flag `g`). -/
def reConnNoTarget : RE :=
  reSeqs [.wordB, .group 1 (.plusC nodeChar), .starC jsWhite, reArrows]

/-- Full connection pattern
`\b([A-Za-z0-9_-]+)\s*(?:…arrows…)\s*([A-Za-z0-9_-]+)` (flag `g`). -/
def reConnFull : RE :=
  reSeqs [.wordB, .group 1 (.plusC nodeChar), .starC jsWhite, reArrows,
    .starC jsWhite, .group 2 (.plusC nodeChar)]

/-- The fallback synthesizer's connection pattern: no `\b`, and three more
arrow alternatives `~~~>|--\*|==\*` appended after `===`. -/
def reConnFallback : RE :=
  let arrows := reAlts [reOf "-->", reOf "==>",
    reSeqs [.chr '-', .any, .chr '-', .chr '>'],
    reOf "--o", reOf "--x", reOf "|>", reOf "<|", reOf "~~~", reOf "---", reOf "===",
    reOf "~~~>", reOf "--*", reOf "==*"]
  reSeqs [.group 1 (.plusC nodeChar), .starC jsWhite, arrows,
    .starC jsWhite, .group 2 (.plusC nodeChar)]

/-- Pattern `classDef\s+([A-Za-z0-9_-]+)\s+([^;\n]+)` (flag `g`). -/
def reClassDef : RE :=
  reSeqs [reOf "classDef", .plusC jsWhite, .group 1 (.plusC nodeChar),
    .plusC jsWhite, .group 2 (.plusC (fun c => c ≠ ';' && c ≠ '\n'))]

/-- Pattern `^(graph|flowchart)\s+([A-Z]\x7b2\x7d)`, flag `i` (anchored at the string start;
the `i` flag makes both the keywords and the letter class case-blind). -/
def reDirection : RE :=
  reSeqs [.bos, .group 1 (.alt (reStrCI "graph") (reStrCI "flowchart")),
    .plusC jsWhite, .group 2 (.seq (.cls asciiLetter) (.cls asciiLetter))]

/-- Pattern `subgraph` (flag `g`). -/
def reSubgraph : RE := reOf "subgraph"

/-- Pattern `\bend\b` (flag `g`). -/
def reEndWord : RE := reSeqs [.wordB, reOf "end", .wordB]

/-- Pattern `;\s*$` (flags `gm`). -/
def reTrailingSemi : RE := reSeqs [.chr ';', .starC jsWhite, .eol true]

/-- Pattern `\s+` (flag `g`). -/
def reWsRun : RE := .plusC jsWhite

/-- The sanitizer's character allow-list `[^a-zA-Z0-9\s\[\]\-_>]`. -/
def sanAllowed (c : Char) : Bool :=
  asciiLetter c || ('0' ≤ c && c ≤ '9') || jsWhite c ||
  c = '[' || c = ']' || c = '-' || c = '_' || c = '>'

def reSanitize : RE := .cls (fun c => ¬ sanAllowed c)

/-- The dynamic pattern `new RegExp("\\b" + id + "\\b(?!\\s*(?:\\[|\\(|\\{))")`. -/
def reDynNode (id : List Char) : RE :=
  reSeqs [.wordB, reStr id, .wordB,
    .nla (.seq (.starC jsWhite) (reAlts [.chr '[', .chr '(', .chr '{']))]

/-! ### processDefinition (the Normalizer) -/

/-- Abbreviation: the character list of a string literal. -/
def strL (s : String) : List Char := s.data

/-- One step of the `connRegex.exec(line)` loop in `processDefinition`:
the regex keeps its `lastIndex` across iterations while `line` is
reassigned inside the loop body, so the next `exec` runs on the updated
line starting from the previous match's end. -/
def processLineLoop (defined : List (List Char)) :
    Nat → List Char → Nat → List Char
  | 0, line, _ => line
  | fuel + 1, line, li =>
    match execFrom reConnNoTarget line li with
    | none => line
    | some (_, e, caps) =>
      let nodeId := cap caps 1
      let line' :=
        if ¬ defined.contains nodeId ∧ ¬ containsSub (nodeId ++ ['[']) line ∧
           ¬ containsSub (nodeId ++ ['(']) line ∧ ¬ containsSub (nodeId ++ ['{']) line
        then replaceFirst (reDynNode nodeId)
          (fun _ _ => nodeId ++ '[' :: (nodeId ++ [']'])) line
        else line
      processLineLoop defined fuel line' e

/-- The per-line map of `processDefinition`: pass through comment,
header, subgraph and end lines; on other lines, give every source node
of a connection that has no definition anywhere an inline `Id[Id]`
definition. -/
def processDefLine (defined : List (List Char)) (line : List Char) : List Char :=
  let t := trimL line
  if (strL "%").isPrefixOf t ∨ (strL "graph").isPrefixOf t ∨
     (strL "flowchart").isPrefixOf t ∨ (strL "subgraph").isPrefixOf t ∨
     (strL "end").isPrefixOf t
  then line
  else processLineLoop defined ((line.length + 2) * (line.length + 2)) line 0

/-- `processDefinition`, the first cleanup pass.  Mirrors the source
statement by statement: trim, CRLF normalization, duplicate-header
collapsing, invalid-arrow repair, the six dangling-arrow rules, the three
repeated-definition rules, per-line synthesis of inline definitions,
trailing-semicolon removal, and the header-prepending guard. -/
def processDefCore (input : List Char) : List Char :=
  let processed := trimL input
  let processed := replaceG reCRLF (fun _ _ => ['\n']) processed
  let processed := replaceG reDupHeader (fun m _ => m.takeWhile (· ≠ '\n')) processed
  let processed := replaceG reBadSolid (fun _ _ => strL "-->") processed
  let processed := replaceG reBadThick (fun _ _ => strL "==>") processed
  let processed := replaceG (reDanglingSolidHead true) (fun _ _ => strL "--> Unknown") processed
  let processed := replaceG (reDanglingThickHead true) (fun _ _ => strL "==> Unknown") processed
  let processed := replaceG (reDanglingDottedHead true) (fun _ _ => strL "-.-> Unknown") processed
  let processed := replaceG (reDanglingSolid true) (fun _ _ => strL "--> Unknown") processed
  let processed := replaceG (reDanglingThick true) (fun _ _ => strL "==> Unknown") processed
  let processed := replaceG (reDanglingDotted true) (fun _ _ => strL "-.-> Unknown") processed
  let processed := replaceG reRepeatedDefSolid
    (fun _ caps => cap caps 1 ++ strL " --> Unknown") processed
  let processed := replaceG reRepeatedDefThick
    (fun _ caps => cap caps 1 ++ strL " ==> Unknown") processed
  let processed := replaceG reRepeatedDefDotted
    (fun _ caps => cap caps 1 ++ strL " -.-> Unknown") processed
  let defined := (findAll reNodeDef processed).map (fun m => cap m.2 1)
  let lines := splitNl processed
  let processed := joinNl (lines.map (processDefLine defined))
  let processed := replaceG reTrailingSemi (fun _ _ => []) processed
  if ¬ (strL "graph").isPrefixOf (trimL processed) ∧
     ¬ (strL "flowchart").isPrefixOf (trimL processed)
  then strL "graph TD\n" ++ processed
  else processed

def processDefinition (s : String) : String :=
  if trimL s.data = [] then "graph TD\n    A[Empty] --> B[Diagram]"
  else String.mk (processDefCore s.data)

/-! ### validateAndFixDiagram (the DiagramValidator) -/

/-- Pass-1 skip test and pass-2 pass-through test of the validator
(the same five prefixes, checked on the trimmed line). -/
def isPassThrough (t : List Char) : Bool :=
  (strL "graph").isPrefixOf t || (strL "flowchart").isPrefixOf t ||
  (strL "%").isPrefixOf t || (strL "subgraph").isPrefixOf t ||
  (strL "end").isPrefixOf t

/-- First pass: collect every node defined on a non-pass-through line. -/
def collectDefined (lines : List (List Char)) : List (List Char) :=
  lines.foldl
    (fun acc line =>
      let t := trimL line
      if isPassThrough t then acc
      else (findAll reNodeDef t).foldl (fun a m => addUnique a (cap m.2 1)) acc)
    []

/-- State of the validator's second pass. -/
structure VState where
  validated : List (List Char)
  defined : List (List Char)
  hasValidConnection : Bool

/-- Process the connection matches of one line in order: record missing
endpoint definitions (pushing a synthesized `    Id[Id]` line) before the
line itself is pushed. -/
def vProcessMatches (st : VState) :
    List (List Char × List (Nat × List Char)) → VState
  | [] => st
  | m :: rest =>
    let fromN := cap m.2 1
    let toN := cap m.2 2
    let st :=
      if st.defined.contains fromN then st
      else ⟨st.validated ++ [strL "    " ++ fromN ++ '[' :: (fromN ++ [']'])],
        addUnique st.defined fromN, st.hasValidConnection⟩
    let st :=
      if st.defined.contains toN then st
      else ⟨st.validated ++ [strL "    " ++ toN ++ '[' :: (toN ++ [']'])],
        addUnique st.defined toN, st.hasValidConnection⟩
    vProcessMatches ⟨st.validated, st.defined, true⟩ rest

/-- Second pass, one line. -/
def vStep (st : VState) (line : List Char) : VState :=
  let t := trimL line
  if isPassThrough t then
    ⟨st.validated ++ [line], st.defined, st.hasValidConnection⟩
  else
    let ms := findAll reConnFull t
    if ms ≠ [] then
      let st := vProcessMatches st ms
      ⟨st.validated ++ [line], st.defined, st.hasValidConnection⟩
    else if t.length > 0 ∧ reTest reNodeDef t then
      ⟨st.validated ++ [line], st.defined, st.hasValidConnection⟩
    else st

/-- The validator body (inside its `try`).  Returns the reconstructed
document: the input's header lines, then the validated lines. -/
def validateBody (input : List Char) : List Char :=
  let lines := splitNl input
  let defined0 := collectDefined lines
  let st := lines.foldl vStep ⟨[], defined0, false⟩
  let st :=
    if ¬ st.hasValidConnection ∧ st.defined ≠ [] then
      match st.defined with
      | a :: b :: _ =>
        ⟨st.validated ++ [strL "    " ++ a ++ strL " --> " ++ b], st.defined,
          st.hasValidConnection⟩
      | [a] =>
        ⟨st.validated ++ [strL "    " ++ a ++ strL " --> Unknown",
          strL "    Unknown[Unknown]"], st.defined, st.hasValidConnection⟩
      | [] => st
    else st
  if st.defined = [] then strL "graph TD\n    A[Repository] --> B[Components]"
  else
    let headers := lines.filter (fun l =>
      (strL "graph").isPrefixOf (trimL l) || (strL "flowchart").isPrefixOf (trimL l))
    let hdr := joinNl headers
    let hdr := if hdr = [] then strL "graph TD" else hdr
    hdr ++ '\n' :: joinNl st.validated

/-- `validateAndFixDiagram` with the `try`/`catch` made explicit: when
`raises` is set the body's result is discarded and the `catch` branch's
canonical error document is returned, exactly as in the source.  The
body itself is total, so in the real component the `catch` fires only on
a runtime fault injected from outside the function's own logic. -/
def validateAndFixDiagramT (raises : Bool) (s : String) : String :=
  if trimL s.data = [] then "graph TD\n    A[Empty] --> B[Diagram]"
  else if raises then "graph TD\n    A[Error] --> B[Occurred]\n    B --> C[Fallback]"
  else String.mk (validateBody s.data)

def validateAndFixDiagram (s : String) : String :=
  validateAndFixDiagramT false s

/-! ### createFallbackDiagram (the FallbackSynthesizer) -/

/-- Replace the first occurrence of a literal substring
(`String.prototype.replace` with a string pattern). -/
def replaceFirstLit (pat rep : List Char) : List Char → List Char
  | [] => if pat = [] then rep else []
  | c :: t =>
    if pat.isPrefixOf (c :: t) then rep ++ (c :: t).drop pat.length
    else c :: replaceFirstLit pat rep t

/-- The six dangling-arrow repairs, shared by the normalizer (multiline),
the fallback synthesizer's cleanup (multiline) and its per-line
connection-text normalization (not multiline). -/
def fixDanglingArrows (m : Bool) (l : List Char) : List Char :=
  let l := replaceG (reDanglingSolidHead m) (fun _ _ => strL "--> Unknown") l
  let l := replaceG (reDanglingThickHead m) (fun _ _ => strL "==> Unknown") l
  let l := replaceG (reDanglingDottedHead m) (fun _ _ => strL "-.-> Unknown") l
  let l := replaceG (reDanglingSolid m) (fun _ _ => strL "--> Unknown") l
  let l := replaceG (reDanglingThick m) (fun _ _ => strL "==> Unknown") l
  replaceG (reDanglingDotted m) (fun _ _ => strL "-.-> Unknown") l

/-- The three repeated-definition repairs. -/
def fixRepeatedDefs (l : List Char) : List Char :=
  let l := replaceG reRepeatedDefSolid (fun _ caps => cap caps 1 ++ strL " --> Unknown") l
  let l := replaceG reRepeatedDefThick (fun _ caps => cap caps 1 ++ strL " ==> Unknown") l
  replaceG reRepeatedDefDotted (fun _ caps => cap caps 1 ++ strL " -.-> Unknown") l

/-- Extraction state of the fallback synthesizer. -/
structure FbState where
  nodes : List (List Char)
  connections : List (List Char × List Char)
  labels : List (List Char × List Char)

/-- Node/label extraction for one line (the `nodeDefRegex` loop). -/
def fbNodes (st : FbState) (line : List Char) : FbState :=
  (findAll reNodeDef line).foldl
    (fun st m =>
      let nodeId := trimL (cap m.2 1)
      let label :=
        if cap m.2 2 ≠ [] then cap m.2 2
        else if cap m.2 3 ≠ [] then cap m.2 3
        else if cap m.2 4 ≠ [] then cap m.2 4
        else nodeId
      if nodeId ≠ [] ∧ ¬ containsSub [' '] nodeId ∧ nodeId.length > 0 then
        ⟨addUnique st.nodes nodeId, st.connections, recordSet st.labels nodeId label⟩
      else st)
    st

/-- Connection extraction for one line: whitespace is collapsed and the
dangling-arrow fixes re-applied (without the `m` flag) before matching. -/
def fbConns (st : FbState) (line : List Char) : FbState :=
  let connectionText :=
    fixDanglingArrows false (replaceG reWsRun (fun _ _ => [' ']) line)
  (findAll reConnFallback connectionText).foldl
    (fun st m =>
      let fromN := trimL (cap m.2 1)
      let toN := trimL (cap m.2 2)
      if fromN ≠ [] ∧ toN ≠ [] ∧ fromN.length > 0 ∧ toN.length > 0 then
        ⟨addUnique (addUnique st.nodes fromN) toN,
          st.connections ++ [(fromN, toN)], st.labels⟩
      else st)
    st

/-- The full extraction pass of `createFallbackDiagram`: cleanup rules,
then per-line node and connection collection (comment lines skipped). -/
def fallbackExtract (input : List Char) : FbState :=
  let cleaned := replaceG reTrailingSemi (fun _ _ => [])
    (fixRepeatedDefs (fixDanglingArrows true input))
  (splitNl cleaned).foldl
    (fun st line =>
      if (strL "%").isPrefixOf (trimL line) then st
      else fbConns (fbNodes st line) line)
    ⟨[], [], []⟩

/-- `createFallbackDiagram`: re-emit one definition line per node and one
`-->` line per connection, fall back to the built-in three-node document
when no node was extracted, and validate the result. -/
def createFallbackDiagram (s : String) : String :=
  if trimL s.data = [] then "graph TD\n    A[Empty] --> B[Diagram]"
  else
    let st := fallbackExtract s.data
    let fb := strL "graph TD\n" ++
      (st.nodes.foldl (fun acc n =>
        acc ++ strL "    " ++ n ++ '[' :: ((recordGet st.labels n).getD n ++ strL "]\n")) []) ++
      (st.connections.foldl (fun acc c =>
        acc ++ strL "    " ++ c.1 ++ strL " --> " ++ c.2 ++ ['\n']) [])
    let fb :=
      if st.nodes = [] then
        strL "graph TD\n    A[Repository] --> B[Components]\n    B --> C[Features]"
      else fb
    validateAndFixDiagram (String.mk fb)

/-! ### ensurePerfectDiagram (the Repairer) -/

def diagramTypes : List String :=
  ["graph", "flowchart", "sequenceDiagram", "classDiagram",
   "stateDiagram", "erDiagram", "gantt", "pie", "journey"]

def validDirections : List (List Char) :=
  [strL "TB", strL "TD", strL "BT", strL "RL", strL "LR"]

/-- The `classDefRegex.exec` loop of the repairer: the regex `lastIndex`
persists while `perfectDiagram` is replaced inside the loop body. -/
def classDefLoop : Nat → List Char → Nat → List Char
  | 0, p, _ => p
  | fuel + 1, p, li =>
    match execFrom reClassDef p li with
    | none => p
    | some (_, e, caps) =>
      let className := cap caps 1
      let styleText := cap caps 2
      let p' :=
        if ¬ containsSub [':'] styleText ∧ ¬ ['{'].isPrefixOf styleText then
          replaceFirstLit (strL "classDef " ++ className ++ ' ' :: styleText)
            (strL "classDef " ++ className ++ ' ' ::
              strL "fill:#f9f9f9,stroke:#666,stroke-width:1px") p
        else p
      classDefLoop fuel p' e

/-- Index of the first line that is not a header or comment line
(0 when every line is one, as in the source's fallback). -/
def firstContentIdx (lines : List (List Char)) : Nat :=
  match lines.findIdx? (fun l =>
    ¬ ((strL "graph").isPrefixOf (trimL l) || (strL "flowchart").isPrefixOf (trimL l) ||
       (strL "%").isPrefixOf (trimL l))) with
  | some i => i
  | none => 0

/-- `splice(i, 0, x)`. -/
def insertAt (x : List Char) : Nat → List (List Char) → List (List Char)
  | 0, ls => x :: ls
  | _ + 1, [] => [x]
  | n + 1, l :: ls => l :: insertAt x n ls

/-- Step 5 of the repairer: give every referenced but undefined node
(except the sentinel `Unknown`) a definition line inserted at the first
content line. -/
def insertMissingDefs (referenced : List (List Char)) (defined : List (List Char))
    (lines : List (List Char)) : List (List Char) :=
  (referenced.foldl
    (fun (st : List (List Char) × List (List Char)) node =>
      if ¬ st.2.contains node ∧ node ≠ strL "Unknown" then
        (insertAt (strL "    " ++ node ++ '[' :: (node ++ [']'])) (firstContentIdx st.1) st.1,
          st.2 ++ [node])
      else st)
    (lines, defined)).1

/-- The repairer body (inside its `try`): normalize, validate, then the
five advanced fixes of the source — diagram-type guard, direction repair,
`classDef` style repair, `subgraph`/`end` rebalancing, and synthesis of
missing endpoint definitions. -/
def ensurePerfectBody (input : List Char) : List Char :=
  let p := (processDefinition (String.mk input)).data
  let p := (validateAndFixDiagram (String.mk p)).data
  let hasValidType := diagramTypes.any (fun ty => ty.data.isPrefixOf (trimL p))
  let p := if ¬ hasValidType then strL "graph TD\n" ++ p else p
  let p :=
    match search reDirection none p with
    | some fd =>
      if ¬ validDirections.contains ((cap fd.after.caps 2).map Char.toUpper) then
        replaceFirst reDirection (fun _ caps => cap caps 1 ++ strL " TD") p
      else p
    | none => p
  let p := classDefLoop (p.length + 2) p 0
  let subgraphCount := (findAll reSubgraph p).length
  let endCount := (findAll reEndWord p).length
  let p :=
    if subgraphCount > endCount then
      p ++ '\n' :: repeatL (strL "end") (subgraphCount - endCount)
    else p
  let defined := (findAll reNodeDef p).foldl (fun a m => addUnique a (cap m.2 1)) []
  let referenced := (findAll reConnFull p).foldl
    (fun a m => addUnique (addUnique a (cap m.2 1)) (cap m.2 2)) []
  joinNl (insertMissingDefs referenced defined (splitNl p))

/-- `ensurePerfectDiagram` with its `try`/`catch` made explicit, as for
the validator: `raises` selects the `catch` branch's canonical document. -/
def ensurePerfectDiagramT (raises : Bool) (s : String) : String :=
  if trimL s.data = [] then "graph TD\n    A[Empty] --> B[Diagram]"
  else if raises then "graph TD\n    A[Error] --> B[In] --> C[Processing]"
  else String.mk (ensurePerfectBody s.data)

def ensurePerfectDiagram (s : String) : String :=
  ensurePerfectDiagramT false s

/-! ### renderDiagram (the RenderAttemptPipeline)

The external engine `mermaid.render` is modelled by an oracle
`render : String → Option String`: `some svg` when the engine produces
markup, `none` when it throws.  The four tiers of the spec correspond to
the source's branches: Primary is the initial `try` (render mode
"mermaid"), Sanitized the first `catch` (mode "fallback" with the
"simplified" notice), Minimal the second `catch`, and Manual the
innermost `catch`, which builds an SVG string directly. -/

inductive Tier where
  | primary
  | sanitized
  | minimal
  | manual
deriving DecidableEq, Repr

structure RenderResult where
  tier : Tier
  markup : String
  diagnostic : Option String
deriving DecidableEq, Repr

/-- The character filter of the Sanitized tier:
`diagramDefinition.replace(/[^a-zA-Z0-9\s\[\]\-_>]/g, "")`. -/
def sanitizeDefinition (s : String) : String :=
  String.mk (replaceG reSanitize (fun _ _ => []) s.data)

/-- The fixed Minimal-tier document. -/
def minimalDiagram : String := "graph TD\n    A[Error] --> B[Rendering Failed]"

/-- The Manual tier's hand-built SVG (the source's template literal,
including its indentation). -/
def manualSvg : String :=
  "<svg xmlns=\"http://www.w3.org/2000/svg\" width=\"100%\" height=\"100%\" viewBox=\"0 0 200 100\">\n            <rect width=\"100%\" height=\"100%\" fill=\"#f5f5f5\"/>\n            <text x=\"50%\" y=\"50%\" font-family=\"Arial\" font-size=\"14\" text-anchor=\"middle\">Diagram Rendering Failed</text>\n          </svg>"

/-- `renderDiagram`, instrumented: returns the list of texts passed to
the render engine, in order, together with the outcome.  A `none`
outcome models the guard `if (!diagramDefinition)`, which clears the
displayed markup (`setDiagramSvg("")`) and returns without attempting
any tier. -/
def renderDiagramRun (render : String → Option String) (raw : String) :
    List String × Option RenderResult :=
  if raw = "" then ([], none)
  else
    let p := processDefinition raw
    match render p with
    | some svg => ([p], some ⟨.primary, svg, none⟩)
    | none =>
      let sd := sanitizeDefinition raw
      match render sd with
      | some svg =>
        ([p, sd], some ⟨.sanitized, svg, some "Diagram was simplified due to syntax issues"⟩)
      | none =>
        match render minimalDiagram with
        | some svg =>
          ([p, sd, minimalDiagram],
            some ⟨.minimal, svg, some "Failed to render diagram due to syntax errors"⟩)
        | none =>
          ([p, sd, minimalDiagram],
            some ⟨.manual, manualSvg, some "Failed to render diagram"⟩)

/-- The texts C10 claims are passed to the engine, written out from the
claim: the normalized raw text, then (on failure) the allow-list-filtered
raw text, then (on failure) the fixed minimal document — and nothing
else; no tier is attempted for absent input. -/
def claimedAttempts (render : String → Option String) (raw : String) : List String :=
  if raw = "" then []
  else
    processDefinition raw ::
      (if (render (processDefinition raw)).isSome then []
       else sanitizeDefinition raw ::
         (if (render (sanitizeDefinition raw)).isSome then [] else [minimalDiagram]))

/-! ### Observations used by the claims -/

/-- Substring test, string-valued interface. -/
def containsStr (hay needle : String) : Bool :=
  containsSub needle.data hay.data

/-- The distinct edge endpoints of a document, read off with the same
connection pattern the component uses. -/
def edgeEndpointsOf (doc : String) : List String :=
  ((findAll reConnFull doc.data).foldl
    (fun a m => addUnique (addUnique a (cap m.2 1)) (cap m.2 2)) []).map String.mk

/-- The distinct defined node names of a document, read off with the same
node-definition pattern the component uses. -/
def definedNamesOf (doc : String) : List String :=
  ((findAll reNodeDef doc.data).foldl
    (fun a m => addUnique a (cap m.2 1)) []).map String.mk

/-- Number of (non-overlapping) occurrences of a literal token. -/
def countSubstrIn (doc token : String) : Nat :=
  (findAll (reStr token.data) doc.data).length

/-- Number of word-bounded `end` tokens, the component's own counting
pattern. -/
def countEndTokens (doc : String) : Nat :=
  (findAll reEndWord doc.data).length

/-- Modelled from the spec's data model: the direction token is whatever
token follows the `graph`/`flowchart` keyword on the document's first
line. -/
def directionTokenOf (doc : String) : Option String :=
  match splitNl doc.data with
  | [] => none
  | l :: _ =>
    let t := trimL l
    let rest :=
      if (strL "graph").isPrefixOf t then some (t.drop 5)
      else if (strL "flowchart").isPrefixOf t then some (t.drop 9)
      else none
    match rest with
    | none => none
    | some r =>
      let tok := (r.dropWhile jsWhite).takeWhile (fun c => ¬ jsWhite c)
      if tok = [] then none else some (String.mk tok)

/-- An edge reading that also accepts a bracketed label on the source
node (so `A[A] --> B` counts as the edge `A --> B`), used to state what
"contains the edge" means for documents the normalizer emits. -/
def reLooseEdge : RE :=
  reSeqs [.wordB, .group 1 (.plusC nodeChar), .alt (reBracketAny false) .eps,
    .starC jsWhite,
    reAlts [reOf "-->", reOf "==>", reSeqs [.chr '-', .chr '.', .chr '-', .chr '>']],
    .starC jsWhite, .group 2 (.plusC nodeChar)]

def looseEdgesOf (doc : String) : List (String × String) :=
  (findAll reLooseEdge doc.data).map
    (fun m => (String.mk (cap m.2 1), String.mk (cap m.2 2)))

/-! ### Claims -/

set_option maxHeartbeats 1600000

/-- C1 (counterexample): for the empty (absent) input the entry point
attempts no tier and produces no `RenderResult` at all — the displayed
markup is cleared to `""` — even when the render engine always succeeds,
contradicting "for every input string x (including the empty string, a
missing/absent value …) the public entry point … produces non-empty
markup with a tier". -/
theorem renderDiagram_empty_input_counterexample :
    renderDiagramRun (fun _ => some "<svg/>") "" = ([], none) := rfl

/-- C1 (amended): for every non-empty input and every render oracle whose
successes are non-empty, the pipeline terminates with a `RenderResult`
whose markup is non-empty and whose tier is Primary, Sanitized, Minimal
or Manual; the terminal Manual tier is a constructed SVG string and needs
no render success. -/
theorem renderDiagram_total_result (render : String → Option String) (raw : String)
    (hraw : raw ≠ "") (hr : ∀ s m, render s = some m → m ≠ "") :
    ∃ r : RenderResult, (renderDiagramRun render raw).2 = some r ∧
      r.markup ≠ "" ∧
      (r.tier = .primary ∨ r.tier = .sanitized ∨ r.tier = .minimal ∨ r.tier = .manual) := by
  unfold renderDiagramRun
  rw [if_neg hraw]
  cases h1 : render (processDefinition raw) with
  | some svg =>
    exact ⟨⟨.primary, svg, none⟩, by simp [h1], hr _ _ h1, Or.inl rfl⟩
  | none =>
    cases h2 : render (sanitizeDefinition raw) with
    | some svg =>
      exact ⟨⟨.sanitized, svg, some "Diagram was simplified due to syntax issues"⟩,
        by simp [h1, h2], hr _ _ h2, Or.inr (Or.inl rfl)⟩
    | none =>
      cases h3 : render minimalDiagram with
      | some svg =>
        exact ⟨⟨.minimal, svg, some "Failed to render diagram due to syntax errors"⟩,
          by simp [h1, h2, h3], hr _ _ h3, Or.inr (Or.inr (Or.inl rfl))⟩
      | none =>
        exact ⟨⟨.manual, manualSvg, some "Failed to render diagram"⟩,
          by simp [h1, h2, h3], by decide, Or.inr (Or.inr (Or.inr rfl))⟩

/-- C1 (witness): at the always-failing oracle and input `"x"` the
pipeline lands on the Manual tier with non-empty markup. -/
theorem renderDiagram_total_result_witness :
    ∃ r : RenderResult, (renderDiagramRun (fun _ => none) "x").2 = some r ∧
      r.markup ≠ "" ∧
      (r.tier = .primary ∨ r.tier = .sanitized ∨ r.tier = .minimal ∨ r.tier = .manual) :=
  renderDiagram_total_result (fun _ => none) "x" (by decide)
    (fun _ _ h => Option.noConfusion h)

/-- C2: the validated output of the Repairer chain on
`"P[P]\nQ[Q]\nend X --> Unknown"` contains the edge `X --> Unknown`
(the line passes through untouched because it starts with `end`), yet
`Unknown` has no definition line anywhere in the output: the repair step
that inserts missing definitions explicitly skips the sentinel
`Unknown`, and nothing else defines it here.  This contradicts the
claimed definition-completeness invariant. -/
theorem validated_output_unknown_endpoint_undefined :
    ensurePerfectDiagram "P[P]\nQ[Q]\nend X --> Unknown" =
      "graph TD\ngraph TD\n    X[X]\nP[P]\nQ[Q]\nend X --> Unknown\n    P --> Q" ∧
    "Unknown" ∈ edgeEndpointsOf
      "graph TD\ngraph TD\n    X[X]\nP[P]\nQ[Q]\nend X --> Unknown\n    P --> Q" ∧
    "Unknown" ∉ definedNamesOf
      "graph TD\ngraph TD\n    X[X]\nP[P]\nQ[Q]\nend X --> Unknown\n    P --> Q" :=
  ⟨rfl, by decide, by decide⟩

/-- C3: for an input with 3 `subgraph` tokens and 1 `end` token the
repairer appends `'end'.repeat(2) = "endend"` with no separators, so the
output still has only one word-bounded `end` token — the component's own
counting pattern — against 3 `subgraph` tokens; only the plain substring
count of `end` reaches 3. -/
theorem repairer_subgraph_end_unbalanced :
    ensurePerfectDiagram "A[A] --> B\nsubgraph S1\nsubgraph S2\nsubgraph S3\nend" =
      "graph TD\ngraph TD\nA[A] --> B\nsubgraph S1\nsubgraph S2\nsubgraph S3\nend\n    A --> Unknown\n    Unknown[Unknown]\nendend" ∧
    countSubstrIn
      "graph TD\ngraph TD\nA[A] --> B\nsubgraph S1\nsubgraph S2\nsubgraph S3\nend\n    A --> Unknown\n    Unknown[Unknown]\nendend"
      "subgraph" = 3 ∧
    countEndTokens
      "graph TD\ngraph TD\nA[A] --> B\nsubgraph S1\nsubgraph S2\nsubgraph S3\nend\n    A --> Unknown\n    Unknown[Unknown]\nendend" = 1 ∧
    countSubstrIn
      "graph TD\ngraph TD\nA[A] --> B\nsubgraph S1\nsubgraph S2\nsubgraph S3\nend\n    A --> Unknown\n    Unknown[Unknown]\nendend"
      "end" = 3 :=
  ⟨rfl, by decide, by decide, by decide⟩

/-- C4 (counterexample): the Repairer is not idempotent — already at the
empty input, a second application turns the canonical empty-input
document into a different document (duplicated header plus a synthesized
edge). -/
theorem repairer_not_idempotent_counterexample :
    ensurePerfectDiagram (ensurePerfectDiagram "") ≠ ensurePerfectDiagram "" := by
  have h1 : ensurePerfectDiagram "" = "graph TD\n    A[Empty] --> B[Diagram]" := rfl
  have h2 : ensurePerfectDiagram "graph TD\n    A[Empty] --> B[Diagram]" =
      "graph TD\ngraph TD\n    A[Empty] --> B[Diagram]\n    A --> B" := rfl
  rw [h1, h2]
  decide

/-- C4 (amended): applying the Repairer twice to the empty input yields
`graph TD\ngraph TD\n    A[Empty] --> B[Diagram]\n    A --> B`, a fixed
point of the Repairer: iteration stabilizes from the second application
on. -/
theorem repairer_stabilizes_after_two_applications :
    ensurePerfectDiagram "" = "graph TD\n    A[Empty] --> B[Diagram]" ∧
    ensurePerfectDiagram (ensurePerfectDiagram "") =
      "graph TD\ngraph TD\n    A[Empty] --> B[Diagram]\n    A --> B" ∧
    ensurePerfectDiagram (ensurePerfectDiagram (ensurePerfectDiagram "")) =
      ensurePerfectDiagram (ensurePerfectDiagram "") := by
  have h1 : ensurePerfectDiagram "" = "graph TD\n    A[Empty] --> B[Diagram]" := rfl
  have h2 : ensurePerfectDiagram "graph TD\n    A[Empty] --> B[Diagram]" =
      "graph TD\ngraph TD\n    A[Empty] --> B[Diagram]\n    A --> B" := rfl
  have h3 : ensurePerfectDiagram
        "graph TD\ngraph TD\n    A[Empty] --> B[Diagram]\n    A --> B" =
      "graph TD\ngraph TD\n    A[Empty] --> B[Diagram]\n    A --> B" := rfl
  refine ⟨h1, ?_, ?_⟩
  · rw [h1]; exact h2
  · rw [h1, h2, h3]

/-- C5 (counterexample): on the input `"B --> C"` the pipeline's
normalizer first rewrites the line to `B[B] --> C`; after that the
validator's connection pattern (which requires a bare identifier before
the arrow) no longer sees an edge, so no `C[C]` definition is ever
synthesized — the output contains no `C[C]`. -/
theorem pipeline_B_C_counterexample :
    validateAndFixDiagram (processDefinition "B --> C") =
      "graph TD\ngraph TD\nB[B] --> C\n    B --> Unknown\n    Unknown[Unknown]" ∧
    ensurePerfectDiagram "B --> C" =
      "graph TD\ngraph TD\nB[B] --> C\n    B --> Unknown\n    Unknown[Unknown]" ∧
    containsStr
      "graph TD\ngraph TD\nB[B] --> C\n    B --> Unknown\n    Unknown[Unknown]"
      "C[C]" = false :=
  ⟨rfl, rfl, by decide⟩

/-- C5 (amended): the DiagramValidator applied directly to the raw line
`"B --> C"` does synthesize both definitions before the kept edge, as
the fix-pass description says. -/
theorem validator_direct_B_C_synthesis :
    validateAndFixDiagram "B --> C" = "graph TD\n    B[B]\n    C[C]\nB --> C" ∧
    containsStr "graph TD\n    B[B]\n    C[C]\nB --> C" "B[B]" = true ∧
    containsStr "graph TD\n    B[B]\n    C[C]\nB --> C" "C[C]" = true ∧
    containsStr "graph TD\n    B[B]\n    C[C]\nB --> C" "B --> C" = true :=
  ⟨rfl, by decide, by decide, by decide⟩

/-- C6 (counterexample): the dangling solid arrow in `"A -- B"` is not
followed by a complete arrowhead anywhere before end-of-line, yet the
Normalizer leaves the line unchanged and no `Unknown` target appears:
the repair only fires when the arrow stands directly (up to whitespace)
before end-of-line or a semicolon. -/
theorem dangling_arrow_midline_counterexample :
    processDefinition "graph TD\nA -- B" = "graph TD\nA -- B" ∧
    containsStr (processDefinition "graph TD\nA -- B") "Unknown" = false :=
  ⟨rfl, by decide⟩

/-- C6 (amended): dangling arrows standing immediately (up to
whitespace) before end-of-line or a semicolon are rewritten to point at
the sentinel `Unknown`, for all three arrow families; in particular the
input `"graph TD\n    A --> "` yields `graph TD\n    A[A] --> Unknown`,
which contains the edge `A --> Unknown` (the source node additionally
receives an inline definition). -/
theorem dangling_arrow_eol_rewritten :
    processDefinition "graph TD\n    A --> " = "graph TD\n    A[A] --> Unknown" ∧
    looseEdgesOf (processDefinition "graph TD\n    A --> ") = [("A", "Unknown")] ∧
    processDefinition "graph TD\nA -- " = "graph TD\nA[A] --> Unknown" ∧
    processDefinition "graph TD\nA == " = "graph TD\nA[A] ==> Unknown" ∧
    processDefinition "graph TD\nA -. " = "graph TD\nA[A] -.-> Unknown" ∧
    processDefinition "graph TD\nA -->;" = "graph TD\nA[A] --> Unknown" :=
  ⟨rfl, rfl, rfl, rfl, rfl, rfl⟩

/-- C7: the repairer's direction check matches only the first two
letters after the header keyword, so the three-letter direction token
`TDX` passes the check (its first two letters read `TD`) and survives to
the output unreplaced, although it is outside {TB, TD, BT, RL, LR}. -/
theorem direction_token_not_replaced :
    ensurePerfectDiagram "graph TDX\nA --> B" =
      "graph TDX\ngraph TDX\nA[A] --> B\n    A --> Unknown\n    Unknown[Unknown]" ∧
    directionTokenOf
      "graph TDX\ngraph TDX\nA[A] --> B\n    A --> Unknown\n    Unknown[Unknown]" =
      some "TDX" ∧
    validDirections.contains (strL "TDX") = false :=
  ⟨rfl, by decide, by decide⟩

/-- C8 (counterexample): when the validator's body fails, the `catch`
returns the document `Error --> Occurred --> Fallback`, not the claimed
canonical `Error --> In --> Processing` (which is the Repairer's own
`catch` document). -/
theorem validator_catch_counterexample :
    validateAndFixDiagramT true "x" =
      "graph TD\n    A[Error] --> B[Occurred]\n    B --> C[Fallback]" ∧
    validateAndFixDiagramT true "x" ≠
      "graph TD\n    A[Error] --> B[In] --> C[Processing]" :=
  ⟨rfl, by decide⟩

/-- C8 (amended): for every non-blank input, an internal failure of the
DiagramValidator is caught and converted to its canonical 3-node error
document `Error --> Occurred --> Fallback`, while an internal failure of
the Repairer is caught and converted to `Error --> In --> Processing`;
neither propagates (both wrappers are total). -/
theorem catch_branches_canonical (s : String) (h : trimL s.data ≠ []) :
    validateAndFixDiagramT true s =
      "graph TD\n    A[Error] --> B[Occurred]\n    B --> C[Fallback]" ∧
    ensurePerfectDiagramT true s =
      "graph TD\n    A[Error] --> B[In] --> C[Processing]" := by
  unfold validateAndFixDiagramT ensurePerfectDiagramT
  rw [if_neg h, if_neg h]
  exact ⟨rfl, rfl⟩

/-- C8 (witness): the catch documents at the concrete input `"x"`. -/
theorem catch_branches_canonical_witness :
    validateAndFixDiagramT true "x" =
      "graph TD\n    A[Error] --> B[Occurred]\n    B --> C[Fallback]" ∧
    ensurePerfectDiagramT true "x" =
      "graph TD\n    A[Error] --> B[In] --> C[Processing]" :=
  catch_branches_canonical "x" (by decide)

/-- C9 (counterexample): on `"hello world"` the extraction yields zero
nodes, but the synthesizer returns the three-node document
`Repository --> Components --> Features` (with a duplicated header from
the final validation pass), not the claimed two-node canonical
`Repository --> Components`. -/
theorem fallback_zero_nodes_counterexample :
    createFallbackDiagram "hello world" =
      "graph TD\ngraph TD\n    A[Repository] --> B[Components]\n    B --> C[Features]" ∧
    createFallbackDiagram "hello world" ≠
      "graph TD\n    A[Repository] --> B[Components]" ∧
    containsStr (createFallbackDiagram "hello world") "C[Features]" = true :=
  ⟨rfl, by decide, by decide⟩

/-- C9 (amended): for every non-blank input from which the extraction
yields zero nodes, the FallbackSynthesizer returns the fixed three-node
document `Repository --> Components --> Features` as revalidated by the
DiagramValidator (which duplicates its header line). -/
theorem fallback_zero_nodes_three_node_result (s : String) (h1 : trimL s.data ≠ [])
    (h2 : (fallbackExtract s.data).nodes = []) :
    createFallbackDiagram s =
      "graph TD\ngraph TD\n    A[Repository] --> B[Components]\n    B --> C[Features]" := by
  unfold createFallbackDiagram
  rw [if_neg h1]
  simp only [h2]
  rfl

/-- C9 (witness): `"hello world"` is non-blank and extraction-empty. -/
theorem fallback_zero_nodes_three_node_result_witness :
    createFallbackDiagram "hello world" =
      "graph TD\ngraph TD\n    A[Repository] --> B[Components]\n    B --> C[Features]" :=
  fallback_zero_nodes_three_node_result "hello world" (by decide) (by rfl)

/-- C10: the texts passed to the render engine are exactly the claimed
ones, in tier order — the normalized raw text, then on failure the
allow-list-filtered raw text, then on failure the fixed minimal
document, and nothing at all for absent input; in particular the outputs
of `ensurePerfectDiagram`, `validateAndFixDiagram` and
`createFallbackDiagram` are never among them, and the Manual tier calls
no renderer. -/
theorem render_attempt_texts_characterization (render : String → Option String)
    (raw : String) :
    (renderDiagramRun render raw).1 = claimedAttempts render raw := by
  unfold renderDiagramRun claimedAttempts
  by_cases h : raw = ""
  · simp [h]
  · rw [if_neg h, if_neg h]
    cases h1 : render (processDefinition raw) <;> simp [h1]
    cases h2 : render (sanitizeDefinition raw) <;> simp [h2]
    cases h3 : render minimalDiagram <;> simp [h3]

end Mermaid
